import Mathlib

/-!
Verification of the fastcp host-provisioning core against its code.

Strings from the Python sources are embedded as lists of characters
(List Char), so that the character-level operations the code performs
(split on a separator, substring search, percent decoding, prefix
tests) are plain recursive functions amenable both to evaluation on
concrete inputs and to proof.

Each definition mirrors one function of the repository (named in its
doc comment); library helpers used by the code (str.split, str.replace,
urllib.parse.unquote restricted to ASCII escapes, posixpath.normpath,
str.strip, os.path.basename) are embedded with the semantics of the
CPython implementations they call.
-/

namespace Fastcp

/-- Shorthand turning a string literal into the List Char representation
used throughout the development. -/
def lc (s : String) : List Char := s.data

/-- CPython str.split with a one-character separator: every occurrence
separates, empty segments are kept, and the empty string splits to a
single empty segment. -/
def pySplit (sep : Char) : List Char → List (List Char)
  | [] => [[]]
  | c :: rest =>
    if c = sep then [] :: pySplit sep rest
    else
      match pySplit sep rest with
      | seg :: more => (c :: seg) :: more
      | [] => [[c]]

/-- CPython sep.join for a one-character separator. -/
def pyJoin (sep : Char) : List (List Char) → List Char
  | [] => []
  | [seg] => seg
  | seg :: rest => seg ++ sep :: pyJoin sep rest

/-- CPython substring containment (the in operator on str), as a
Boolean on character lists. -/
def containsSeq (pat : List Char) (s : List Char) : Bool :=
  s.tails.any (fun t => pat.isPrefixOf t)

/-- Whitespace characters stripped by CPython str.strip (ASCII range). -/
def pyIsSpace (c : Char) : Bool :=
  c = ' ' ∨ c = '\t' ∨ c = '\n' ∨ c = '\x0d' ∨ c = '\x0b' ∨ c = '\x0c'

/-- CPython str.strip with no argument: drop leading and trailing
whitespace. -/
def pyStrip (s : List Char) : List Char :=
  ((s.dropWhile pyIsSpace).reverse.dropWhile pyIsSpace).reverse

/-- Value of a hexadecimal digit character, if it is one. -/
def hexVal (c : Char) : Option Nat :=
  if '0' ≤ c ∧ c ≤ '9' then some (c.toNat - '0'.toNat)
  else if 'a' ≤ c ∧ c ≤ 'f' then some (c.toNat - 'a'.toNat + 10)
  else if 'A' ≤ c ∧ c ≤ 'F' then some (c.toNat - 'A'.toNat + 10)
  else none

/-- urllib.parse.unquote restricted to single-byte (ASCII-valued)
escapes: each percent sign followed by two hex digits decodes to the
character with that code, any other percent sign is kept verbatim.
This matches CPython on every string whose escapes decode below 0x80
(multi-byte UTF-8 escape sequences are outside the fragment the
theorems and counterexamples below use). -/
def unquoteAux : Nat → List Char → List Char
  | 0, s => s
  | _ + 1, [] => []
  | fuel + 1, c :: rest =>
    if c = '%' then
      match rest with
      | a :: b :: rest2 =>
        match hexVal a, hexVal b with
        | some x, some y => Char.ofNat (16 * x + y) :: unquoteAux fuel rest2
        | _, _ => '%' :: unquoteAux fuel rest
      | _ => '%' :: unquoteAux fuel rest
    else c :: unquoteAux fuel rest

/-- unquoteAux with the fuel that makes the scan total: every step
consumes at least one character. -/
def unquote (s : List Char) : List Char := unquoteAux s.length s

/-- One step of the component scan of posixpath.normpath: skip empty
and dot components, append a component unless it is a dotdot that
cancels against the accumulator. -/
def normpathStep (initialSlashes : Nat) (acc : List (List Char)) (comp : List Char) :
    List (List Char) :=
  if comp = [] ∨ comp = ['.'] then acc
  else if comp ≠ ['.', '.'] ∨ (initialSlashes = 0 ∧ acc = [])
      ∨ (acc ≠ [] ∧ acc.getLast? = some ['.', '.']) then
    acc ++ [comp]
  else if acc ≠ [] then acc.dropLast
  else acc

/-- CPython posixpath.normpath: collapse slashes, resolve dot and
dotdot components lexically, preserve one or exactly two leading
slashes; the empty path normalizes to a single dot. -/
def normpath (p : List Char) : List Char :=
  if p = [] then ['.']
  else
    let initialSlashes : Nat :=
      if p.take 1 = ['/'] then
        (if p.take 2 = ['/', '/'] ∧ p.take 3 ≠ ['/', '/', '/'] then 2 else 1)
      else 0
    let comps := pySplit '/' p
    let newComps := comps.foldl (normpathStep initialSlashes) []
    let out := List.replicate initialSlashes '/' ++ pyJoin '/' newComps
    if out = [] then ['.'] else out

/-! ## Path confinement guard

api/filemanager/serializers.py, ValidPathSerializer.validate_path, and
api/filemanager/services/base_service.py, BaseService. -/

/-- The four escape markers whose presence triggers one more decode
pass in ValidPathSerializer.validate_path. -/
def hasDecodeMarker (v : List Char) : Bool :=
  containsSeq (lc "%25") v ∨ containsSeq (lc "%20") v
    ∨ containsSeq (lc "%2F") v ∨ containsSeq (lc "%2f") v

/-- The decode loop of ValidPathSerializer.validate_path: up to fuel
(3 in the source) passes of unquote, a pass running only while one of
the four markers is present, stopping early when a pass leaves the
value unchanged. Returns the final value together with the number of
unquote applications performed. -/
def decodeLoop : Nat → List Char → List Char × Nat
  | 0, v => (v, 0)
  | fuel + 1, v =>
    if hasDecodeMarker v then
      let n := unquote v
      if n = v then (v, 1)
      else
        let r := decodeLoop fuel n
        (r.1, r.2 + 1)
    else (v, 0)

/-- ValidPathSerializer.validate_path: an empty value is returned
unchecked; otherwise the value is decoded by the marker-gated loop
(3 passes of fuel), stripped, normalized, and rejected (none) unless
it starts with the configured FILE_MANAGER_ROOT as a string prefix. -/
def validatePath (root : List Char) (value : List Char) : Option (List Char) :=
  if value = [] then some value
  else
    let decoded := (decodeLoop 3 value).1
    let stripped := pyStrip decoded
    let norm := normpath stripped
    if root.isPrefixOf norm then some norm else none

/-- A tenant record as the guard sees it: id, username, superuser flag
(core/models.py User). -/
structure Tenant where
  id : Nat
  username : List Char
  is_superuser : Bool
deriving DecidableEq, Repr

/-- BaseService.get_owner_by_path: take the slash-separated segment at
index 3 of the path and look up the first user record with that
username (Django filter(...).first(); an out-of-range index yields
none). -/
def get_owner_by_path (users : List Tenant) (path : List Char) : Option Tenant :=
  match (pySplit '/' path).get? 3 with
  | some seg => users.find? (fun u => u.username = seg)
  | none => none

/-- BaseService.is_owner: the owner looked up from the path exists and
either has the id of the calling user or the caller is a superuser. -/
def is_owner (users : List Tenant) (path : List Char) (user : Tenant) : Bool :=
  match get_owner_by_path users path with
  | some owner => user.id = owner.id ∨ user.is_superuser
  | none => false

/-- BaseService.is_allowed: is_owner, and the path has at least six
slash-separated components. -/
def is_allowed (users : List Tenant) (path : List Char) (user : Tenant) : Bool :=
  if is_owner users path user then
    decide ((pySplit '/' path).length ≥ 6)
  else false

/-- The combined guard an operation on a client-supplied path passes
through: serializer validation first, then is_allowed on the validated
canonical value. -/
def guardAccepts (root : List Char) (users : List Tenant) (value : List Char)
    (user : Tenant) : Bool :=
  match validatePath root value with
  | some canon => is_allowed users canon user
  | none => false

/-! ## Archive naming

core/utils/filesystem.py, create_zip: the unique-name loop. -/

/-- CPython str.replace: every non-overlapping occurrence of a
non-empty pattern, scanned left to right, is replaced. (The source
only ever calls it with the non-empty pattern ".zip"; an empty pattern
is treated as matching nowhere here.) -/
def pyReplaceAux (pat rep : List Char) : Nat → List Char → List Char
  | 0, s => s
  | _ + 1, [] => []
  | fuel + 1, c :: rest =>
    if pat ≠ [] ∧ pat.isPrefixOf (c :: rest) then
      rep ++ pyReplaceAux pat rep fuel (rest.drop (pat.length - 1))
    else c :: pyReplaceAux pat rep fuel rest

/-- pyReplace with the fuel that makes the scan total: each step of
the scan consumes at least one input character, so the input length
bounds the steps. -/
def pyReplace (pat rep s : List Char) : List Char :=
  pyReplaceAux pat rep s.length s

/-- The replacement string f-string -{i}.zip used by create_zip. -/
def zipSuffix (i : Nat) : List Char :=
  '-' :: (Nat.toDigits 10 i) ++ lc ".zip"

/-- The unique-name loop of create_zip: starting from the seed name
with counter i, while a file of the current name exists, rewrite the
name by replacing ".zip" with -{i}.zip and increment i. The loop of
the source is unbounded; fuel makes it total, returning none when the
fuel runs out before a free name is found. -/
def findZipName (existing : List (List Char)) : Nat → List Char → Nat → Option (List Char)
  | 0, _, _ => none
  | fuel + 1, zipRoot, i =>
    if existing.contains zipRoot = false then some zipRoot
    else findZipName existing fuel (pyReplace (lc ".zip") (zipSuffix i) zipRoot) (i + 1)

/-- N successive calls of create_zip with the same seed file name into
the same directory: each call restarts its counter at 1 and its name
at the seed, and the chosen name is added to the directory. Returns
the chosen names in creation order. -/
def createZips (fuel : Nat) : Nat → List (List Char) → List Char → Option (List (List Char))
  | 0, _, _ => some []
  | n + 1, existing, seed =>
    match findZipName existing fuel seed 1 with
    | none => none
    | some name =>
      match createZips fuel n (name :: existing) seed with
      | none => none
      | some names => some (name :: names)

/-! ## Certificate expiry scan

core/utils/system.py ssl_expiring and
core/management/commands/activate-ssl.py Command.handle. -/

/-- A domain as the scan sees it: name and ssl (verified) flag
(core/models.py Domain). -/
structure DomainRec where
  domain : List Char
  ssl : Bool
deriving DecidableEq, Repr

/-- The certificate state of a website as read by ssl_expiring: either
no cert-chain file on disk, or a certificate with its not_valid_after
instant. Instants are integer seconds; the certificate timestamps of
the x509 library carry no sub-second part the scan depends on. -/
structure WebsiteCert where
  domains : List DomainRec
  certExists : Bool
  notValidAfter : Int
deriving DecidableEq, Repr

/-- Website.needs_ssl: some attached domain has ssl = False. -/
def needs_ssl (w : WebsiteCert) : Bool :=
  (w.domains.filter (fun d => d.ssl = false)).length > 0

/-- core/utils/system.py ssl_expiring: with no cert file, False;
expired (not_valid_after at or before now), True; otherwise True
exactly when the whole-day count of the remaining delta is at most 30.
timedelta.days is the floor of the difference in days; the branch is
only reached with a positive difference, where the floor equals
truncating natural division of the seconds. -/
def ssl_expiring (w : WebsiteCert) (now : Int) : Bool :=
  if w.certExists then
    if w.notValidAfter ≤ now then true
    else if (w.notValidAfter - now).toNat / 86400 ≤ 30 then true
    else false
  else false

/-- The per-website decision of the activate-ssl management command:
get_ssl is attempted exactly when needs_ssl or ssl_expiring holds. -/
def scanActs (w : WebsiteCert) (now : Int) : Bool :=
  needs_ssl w ∨ ssl_expiring w now

/-! ## Domain deletion

api/websites/views.py, DeleteDomainView.delete. -/

/-- A stored domain row: id and owning website id. -/
structure DomainRow where
  id : Nat
  websiteId : Nat
deriving DecidableEq, Repr

/-- A stored website row: id and owning user id. -/
structure WebsiteRow where
  id : Nat
  userId : Nat
deriving DecidableEq, Repr

/-- The persistent state the deletion view reads and writes. -/
structure PanelState where
  websites : List WebsiteRow
  domains : List DomainRow
deriving DecidableEq, Repr

/-- HTTP outcome of the deletion view. -/
inductive DeleteResp
  | notFound
  | badRequest
  | ok
deriving DecidableEq, Repr

/-- Signals the view can emit on the service-control bus. -/
inductive PanelSignal
  | domainsUpdated (websiteId : Nat)
deriving DecidableEq, Repr

/-- DeleteDomainView.delete: look the website up (scoped to the caller
unless superuser); 404 when absent; 400 with no mutation and no signal
when the website has exactly one domain; otherwise delete the matching
domain rows of that website and emit domains_updated. -/
def deleteDomain (st : PanelState) (userId : Nat) (isSuperuser : Bool)
    (websiteId domId : Nat) : DeleteResp × PanelState × List PanelSignal :=
  let website :=
    if isSuperuser then st.websites.find? (fun w => w.id = websiteId)
    else st.websites.find? (fun w => w.userId = userId ∧ w.id = websiteId)
  match website with
  | none => (.notFound, st, [])
  | some w =>
    if (st.domains.filter (fun d => d.websiteId = w.id)).length = 1 then
      (.badRequest, st, [])
    else
      let st' : PanelState :=
        { st with domains :=
            st.domains.filter (fun d => ¬(d.websiteId = w.id ∧ d.id = domId)) }
      (.ok, st', [.domainsUpdated w.id])

/-! ## External command execution and ownership fixing

core/utils/system.py, run_cmd and fix_ownership. -/

/-- How a spawned external command can end, from the point of view of
subprocess.check_call. -/
inductive CmdOutcome
  | success
  | nonzeroExit
  | missingBinary
  | timeout
deriving DecidableEq, Repr

/-- The Python exceptions the execution layer can raise past run_cmd. -/
inductive PyExc
  | calledProcessError
  | fileNotFoundError
  | timeoutExpired
deriving DecidableEq, Repr

/-- core/utils/system.py run_cmd (shell=False branch, the one
fix_ownership uses): check_call with a 300-second timeout; True on
exit status zero, CalledProcessError is caught and becomes False, and
every other exception — FileNotFoundError for a missing binary,
TimeoutExpired for the timeout — propagates. -/
def runCmd (outcome : CmdOutcome) : Except PyExc Bool :=
  match outcome with
  | .success => .ok true
  | .nonzeroExit => .ok false
  | .missingBinary => .error .fileNotFoundError
  | .timeout => .error .timeoutExpired

/-- The chown invocation fix_ownership builds:
/usr/bin/chown -R user:user base_path. -/
def chownCmd (username basePath : List Char) : List Char :=
  lc "/usr/bin/chown -R " ++ username ++ [':'] ++ username ++ [' '] ++ basePath

/-- core/utils/system.py fix_ownership: runs the single recursive
chown through run_cmd, discards its Boolean result, and returns None;
an exception escaping run_cmd propagates. The returned pair carries
the outcome (ok () for a normal return) and the list of commands that
were spawned. -/
def fix_ownership (username basePath : List Char) (outcome : CmdOutcome) :
    Except PyExc Unit × List (List Char) :=
  match runCmd outcome with
  | .ok _ => (.ok (), [chownCmd username basePath])
  | .error e => (.error e, [chownCmd username basePath])

/-! ## Database provisioning

api/databases/services/mysql.py, FastcpSqlService. -/

/-- The engine statements setup_db issues, in source order, with their
parameters (the literal SQL text of the source carries exactly these
parameters in this order). -/
inductive SqlStmt
  | createUserLocalhost (user password : List Char)
  | createUserAnyHost (user password : List Char)
  | createDatabase (dbname : List Char)
  | grantLocalhost (dbname user : List Char)
  | grantAnyHost (dbname user : List Char)
  | flushPrivileges
deriving DecidableEq, Repr

/-- FastcpSqlService._execute_sql: execute one statement on the open
connection; on success return True, on any engine exception re-raise
it (the except branch is raise e; the trailing return False of the
source is unreachable). The executed accumulator records statements
that completed; a raising statement leaves no completed effect. -/
def execute_sql (outcome : SqlStmt → Bool) (executed : List SqlStmt) (sql : SqlStmt) :
    Except (List SqlStmt) (List SqlStmt × Bool) :=
  if outcome sql then .ok (executed ++ [sql], true)
  else .error executed

/-- FastcpSqlService.setup_db: the six statements in source order —
create user at localhost, create user at any host, create database,
grant at localhost, grant at any host, flush privileges — each through
_execute_sql; the return value is all of the six results. An exception
from any statement aborts the rest and propagates (carrying, in this
model, the statements already completed). -/
def setup_db (outcome : SqlStmt → Bool) (user password dbname : List Char) :
    Except (List SqlStmt) (List SqlStmt × Bool) := do
  let r1 ← execute_sql outcome [] (.createUserLocalhost user password)
  let r2 ← execute_sql outcome r1.1 (.createUserAnyHost user password)
  let r3 ← execute_sql outcome r2.1 (.createDatabase dbname)
  let r4 ← execute_sql outcome r3.1 (.grantLocalhost dbname user)
  let r5 ← execute_sql outcome r4.1 (.grantAnyHost dbname user)
  let r6 ← execute_sql outcome r5.1 .flushPrivileges
  pure (r6.1, r1.2 ∧ r2.2 ∧ r3.2 ∧ r4.2 ∧ r5.2 ∧ r6.2)

/-! ## CSR generation and private-key plumbing

api/websites/services/ssl.py (the priv_key handling of FastcpSsl.get_ssl)
and api/websites/services/fcp_acme.py (_generate_csr, request_ssl). -/

/-- Failure of acme.crypto_util.make_csr: loading the private key PEM
fails. An empty buffer is never a loadable PEM key. -/
inductive CsrError
  | invalidKey
deriving DecidableEq, Repr

/-- A certificate signing request as the model tracks it: the covered
domain list and the key it is signed with. -/
structure Csr where
  domains : List (List Char)
  key : List Char
deriving DecidableEq, Repr

/-- acme.crypto_util.make_csr: builds a CSR over the domains with the
given PEM key, failing when the key does not load (the empty string
among others). -/
def make_csr (key : List Char) (domains : List (List Char)) : Except CsrError Csr :=
  if key = [] then .error .invalidKey else .ok ⟨domains, key⟩

/-- FastcpAcme._generate_csr: when priv_key is None a fresh RSA key is
generated and used; otherwise the given key is used as is; either way
make_csr produces the CSR over exactly the given domains. freshKey
stands for the RSA key the source would generate. -/
def generate_csr (freshKey : List Char) (domains : List (List Char))
    (priv_key : Option (List Char)) : Except CsrError (List Char × Csr) :=
  let k := match priv_key with
    | none => freshKey
    | some s => s
  (make_csr k domains).map (fun c => (k, c))

/-- The CSR step of FastcpAcme.request_ssl: delegate to _generate_csr
with the caller-supplied priv_key argument. -/
def request_ssl_csr (freshKey : List Char) (domains : List (List Char))
    (priv_key : Option (List Char)) : Except CsrError (List Char × Csr) :=
  generate_csr freshKey domains priv_key

/-- The pk_arg computation of FastcpSsl.get_ssl: a private key read
from disk is decoded to a string (modeled as the identity on its
characters), and a missing key (None) falls back to the empty string —
never to None. -/
def pk_arg (diskKey : Option (List Char)) : List Char :=
  match diskKey with
  | some s => s
  | none => []

/-- The CSR step as FastcpSsl.get_ssl actually reaches it: request_ssl
is always called with the string pk_arg, so _generate_csr never sees
None. -/
def ssl_pipeline_csr (freshKey : List Char) (domains : List (List Char))
    (diskKey : Option (List Char)) : Except CsrError (List Char × Csr) :=
  request_ssl_csr freshKey domains (some (pk_arg diskKey))

/-! ## The outer SSL issuance attempt

api/websites/services/ssl.py, FastcpSsl.get_ssl. The filesystem,
network and ACME collaborators are supplied as an oracle; the body is
the control flow of the source, and the observable side effects are
returned as a trace. -/

/-- os.path.basename: everything after the last slash. -/
def basename (p : List Char) : List Char :=
  ((pySplit '/' p).getLast?).getD []

/-- One challenge-token entry returned by FastcpAcme.request_ssl. -/
structure TokenInfo where
  path : List Char
  token : List Char
deriving DecidableEq, Repr

/-- The dict FastcpAcme.get_ssl returns on success. -/
structure CertResult where
  full_chain : List Char
  priv_key : List Char
deriving DecidableEq, Repr

/-- An error raised by an ACME or network call inside the try block of
FastcpSsl.get_ssl (caught at the outer boundary). -/
inductive AcmeErr
  | network
deriving DecidableEq, Repr

/-- The collaborators of one FastcpSsl.get_ssl run: the attached
domains with the outcome of the is_resolving pre-check per domain (an
exception inside is_resolving is already converted to False there),
the website paths, the filesystem state read, and the outcomes of the
ACME client construction, of request_ssl, and of the inner
FastcpAcme.get_ssl (which never raises: its bare except returns
False, here none). -/
structure SslOracle where
  domains : List (List Char)
  resolves : List Char → Bool
  sslBase : List Char
  sslBaseExists : Bool
  privKeyPath : List Char
  certChainPath : List Char
  diskPrivKey : Option (List Char)
  accKeyLoaded : Bool
  regrLoaded : Bool
  challengeDirExists : Bool
  acmeInit : Except AcmeErr Unit
  requestSsl : Except AcmeErr (List TokenInfo)
  acmeFinalize : Option CertResult

/-- Observable side effects of one FastcpSsl.get_ssl run. -/
inductive SslEffect
  | mkdir (p : List Char)
  | acmeClientCreated
  | writeFile (p : List Char) (content : List Char)
  | orderPlaced (domains : List (List Char)) (privKeyArg : List Char)
  | restartService (s : List Char)
  | setDomainSsl (d : List Char)
  | removeFile (p : List Char)
deriving DecidableEq, Repr

/-- The fixed host-wide ACME artifact paths of ssl.py. -/
def accountKeyPath : List Char := lc "/var/fastcp/.config/account_key"

/-- The account resource artifact path of ssl.py. -/
def accountResourcePath : List Char := lc "/var/fastcp/.config/account_resource"

/-- The well-known challenge directory ssl.py writes tokens into. -/
def challengeDir : List Char := lc "/var/fastcp/well-known/acme-challenge"

/-- Abstract content of the freshly serialized account key. -/
def accountKeyData : List Char := lc "ACCOUNT_KEY_JSON"

/-- Abstract content of the freshly serialized account resource. -/
def accountResourceData : List Char := lc "ACCOUNT_RESOURCE_JSON"

/-- The token file path ssl.py derives from one request_ssl entry. -/
def tokenFilePath (t : TokenInfo) : List Char :=
  challengeDir ++ '/' :: basename t.path

/-- FastcpSsl.get_ssl: filter the attached domains by the resolution
pre-check; ensure the ssl base directory; read any existing private
key; when at least one domain is verified, construct the ACME client,
persist missing account artifacts, place the order through request_ssl
with the string pk_arg, write the returned challenge tokens, call the
inner acme.get_ssl, and on a truthy result write key and chain,
restart nginx and mark the verified domains; then set status — in the
source the assignment status = True sits outside the if result: block,
so it runs whether or not the inner get_ssl succeeded. Any exception
of the try block is swallowed; the finally block removes the token
files that were recorded. Returns the status boolean and the effect
trace. -/
def fastcpGetSsl (o : SslOracle) : Bool × List SslEffect :=
  let verified := o.domains.filter o.resolves
  let e0 : List SslEffect :=
    if o.sslBase ≠ [] ∧ o.sslBaseExists = false then [.mkdir o.sslBase] else []
  if verified.isEmpty then
    -- token_paths is still empty, so the finally block removes nothing
    (false, e0)
  else
    match o.acmeInit with
    | .error _ => (false, e0)
    | .ok _ =>
      let e1 := e0 ++ [.acmeClientCreated]
        ++ (if o.accKeyLoaded then [] else [.writeFile accountKeyPath accountKeyData])
        ++ (if o.regrLoaded then []
            else [.writeFile accountResourcePath accountResourceData])
      match o.requestSsl with
      | .error _ => (false, e1 ++ [.orderPlaced verified (pk_arg o.diskPrivKey)])
      | .ok results =>
        let e2 := e1 ++ [.orderPlaced verified (pk_arg o.diskPrivKey)]
        let tokenPaths := results.map tokenFilePath
        let e3 := e2 ++
          (if results.isEmpty then []
           else (if o.challengeDirExists then [] else [.mkdir challengeDir])
             ++ results.map (fun r => .writeFile (tokenFilePath r) r.token))
        let finallyFx := tokenPaths.map SslEffect.removeFile
        match o.acmeFinalize with
        | none =>
          -- the inner get_ssl reported failure, yet status = True runs
          (true, e3 ++ finallyFx)
        | some cert =>
          let e4 := e3
            ++ (if o.privKeyPath ≠ [] then [.writeFile o.privKeyPath cert.priv_key]
                else [])
            ++ (if o.certChainPath ≠ []
                then [.writeFile o.certChainPath cert.full_chain] else [])
            ++ [.restartService (lc "nginx")]
            ++ verified.map SslEffect.setDomainSsl
          (true, e4 ++ finallyFx)

/-- Classifier used by the empty-verified-list theorem: the only
effect a run may produce before the verified-domain check is a
directory creation. -/
def isMkdirEffect : SslEffect → Bool
  | .mkdir _ => true
  | _ => false

/-! ## Concrete collaborator instances used by individual theorems -/

/-- A run in which one domain passes the pre-check, the ACME client
and the order succeed, one challenge token is returned, and the inner
FastcpAcme.get_ssl reports failure (none). -/
def c2Oracle : SslOracle where
  domains := [lc "example.com"]
  resolves := fun _ => true
  sslBase := lc "/srv/users/john/apps/site/ssl"
  sslBaseExists := true
  privKeyPath := lc "/srv/users/john/apps/site/ssl/priv.key"
  certChainPath := lc "/srv/users/john/apps/site/ssl/cert.chain"
  diskPrivKey := some (lc "EXISTING_KEY")
  accKeyLoaded := true
  regrLoaded := true
  challengeDirExists := true
  acmeInit := .ok ()
  requestSsl := .ok [⟨lc "/.well-known/acme-challenge/tok1", lc "tok1.keyauth"⟩]
  acmeFinalize := none

/-- An engine in which CREATE DATABASE fails and every other statement
succeeds. -/
def c5FailCreateDb : SqlStmt → Bool := fun s =>
  match s with
  | .createDatabase _ => false
  | _ => true

/-- A run in which the single attached domain fails the resolution
pre-check. -/
def c10Oracle : SslOracle where
  domains := [lc "example.org"]
  resolves := fun _ => false
  sslBase := lc "/srv/users/john/apps/site/ssl"
  sslBaseExists := false
  privKeyPath := lc "/srv/users/john/apps/site/ssl/priv.key"
  certChainPath := lc "/srv/users/john/apps/site/ssl/cert.chain"
  diskPrivKey := none
  accKeyLoaded := false
  regrLoaded := false
  challengeDirExists := false
  acmeInit := .ok ()
  requestSsl := .ok []
  acmeFinalize := none

end Fastcp

namespace Fastcp

/-- Equality on Except with decidable component types is decidable
(used to evaluate the result-typed models on concrete inputs). -/
instance {ε α : Type} [DecidableEq ε] [DecidableEq α] : DecidableEq (Except ε α) :=
  fun x y =>
    match x, y with
    | .error a, .error b =>
      if h : a = b then isTrue (by rw [h]) else isFalse (fun hc => h (by injection hc))
    | .ok a, .ok b =>
      if h : a = b then isTrue (by rw [h]) else isFalse (fun hc => h (by injection hc))
    | .error _, .ok _ => isFalse (fun hc => Except.noConfusion hc)
    | .ok _, .error _ => isFalse (fun hc => Except.noConfusion hc)

/-! # Theorems -/

/-- Helper for C8: the decode loop performs at most fuel unquote
applications, and its result has no decode marker, or is an unquote
fixed point, or was produced with the fuel exhausted. -/
theorem decodeLoop_spec : ∀ (fuel : Nat) (v : List Char),
    (decodeLoop fuel v).2 ≤ fuel
    ∧ (hasDecodeMarker (decodeLoop fuel v).1 = false
      ∨ unquote (decodeLoop fuel v).1 = (decodeLoop fuel v).1
      ∨ (decodeLoop fuel v).2 = fuel) := by
  intro fuel
  induction fuel with
  | zero => intro v; exact ⟨Nat.le_refl 0, Or.inr (Or.inr rfl)⟩
  | succ n ih =>
    intro v
    by_cases hm : hasDecodeMarker v = true
    · by_cases he : unquote v = v
      · have hred : decodeLoop (n + 1) v = (v, 1) := by
          simp [decodeLoop, hm, he]
        rw [hred]
        exact ⟨by omega, Or.inr (Or.inl he)⟩
      · have hred : decodeLoop (n + 1) v
            = ((decodeLoop n (unquote v)).1, (decodeLoop n (unquote v)).2 + 1) := by
          simp [decodeLoop, hm, he]
        obtain ⟨hle, hdisj⟩ := ih (unquote v)
        rw [hred]
        refine ⟨by omega, ?_⟩
        rcases hdisj with h | h | h
        · exact Or.inl h
        · exact Or.inr (Or.inl h)
        · exact Or.inr (Or.inr (by omega))
    · have hm' : hasDecodeMarker v = false := by
        simpa using hm
      have hred : decodeLoop (n + 1) v = (v, 0) := by
        simp [decodeLoop, hm']
      rw [hred]
      exact ⟨Nat.zero_le _, Or.inl hm'⟩

/-- C8 (corrected): the decoding stage of validate_path applies at
most 3 percent-decode passes, and its output either contains none of
the four markers that trigger a pass, or is a fixed point of
percent-decoding, or was produced by exhausting the 3 passes. The
original fixed-point claim fails: see the counterexample. -/
theorem C8_decode_loop_bounded : ∀ (v : List Char),
    (decodeLoop 3 v).2 ≤ 3
    ∧ (hasDecodeMarker (decodeLoop 3 v).1 = false
      ∨ unquote (decodeLoop 3 v).1 = (decodeLoop 3 v).1
      ∨ (decodeLoop 3 v).2 = 3) :=
  fun v => decodeLoop_spec 3 v

/-- C8 counterexample: a path with an escape outside the marker set is
accepted undecoded, and one further percent-decode pass changes it. -/
theorem C8_accepted_not_fixed_point :
    validatePath (lc "/srv/users") (lc "/srv/users/%41bc")
      = some (lc "/srv/users/%41bc")
    ∧ unquote (lc "/srv/users/%41bc") ≠ lc "/srv/users/%41bc" := by
  decide

/-- C1 (corrected): a non-superuser accepted by the whole guard chain
is only guaranteed a STRING-prefix match against the global
file-manager root plus ownership of the segment at index 3; a path
that starts with the root only as a string (here /srv/usersx, an
unrelated sibling of /srv/users) but carries the username of the
caller at index 3 passes both validate_path and is_allowed while lying
outside the sandbox root /srv/users/john. -/
theorem C1_sandbox_escape_counterexample :
    guardAccepts (lc "/srv/users") [⟨1, lc "john", false⟩]
      (lc "/srv/usersx/john/a/b") ⟨1, lc "john", false⟩ = true
    ∧ validatePath (lc "/srv/users") (lc "/srv/usersx/john/a/b")
        = some (lc "/srv/usersx/john/a/b")
    ∧ (lc "/srv/users/john").isPrefixOf (lc "/srv/usersx/john/a/b") = false := by
  decide

/-- C1 (corrected): what the guard chain does enforce for a
non-superuser caller: an accepted canonical path starts with the
global file-manager root as a string prefix, has at least six
slash-separated components, and its segment at index 3 names a stored
tenant whose id is the id of the caller; and is_allowed rejects every
path of fewer than six slash-separated components outright. -/
theorem C1_guard_prefix_and_owner :
    (∀ (root : List Char) (users : List Tenant) (value user canon),
      user.is_superuser = false →
      validatePath root value = some canon →
      is_allowed users canon user = true →
      root.isPrefixOf canon = true
        ∧ (pySplit '/' canon).length ≥ 6
        ∧ ∃ owner, get_owner_by_path users canon = some owner ∧ owner.id = user.id)
    ∧ (∀ (users : List Tenant) (path : List Char) (user : Tenant),
        (pySplit '/' path).length < 6 → is_allowed users path user = false) := by
  constructor
  · intro root users value user canon hsup hval hallow
    have hown : is_owner users canon user = true
        ∧ (pySplit '/' canon).length ≥ 6 := by
      unfold is_allowed at hallow
      split at hallow
      · exact ⟨by assumption, of_decide_eq_true hallow⟩
      · exact absurd hallow (by simp)
    obtain ⟨hisown, hlen⟩ := hown
    have howner : ∃ owner, get_owner_by_path users canon = some owner
        ∧ owner.id = user.id := by
      unfold is_owner at hisown
      cases hmatch : get_owner_by_path users canon with
      | none => rw [hmatch] at hisown; exact absurd hisown (by simp)
      | some owner =>
        rw [hmatch] at hisown
        simp only [Bool.or_eq_true, decide_eq_true_eq, hsup] at hisown
        rcases hisown with hid | hfalse
        · exact ⟨owner, rfl, hid.symm⟩
        · exact absurd hfalse (by simp)
    have hpre : root.isPrefixOf canon = true := by
      simp only [validatePath] at hval
      split at hval
      · -- empty value: canon would be empty, which has a single
        -- slash-separated component, contradicting the length bound
        rename_i hempty
        rw [hempty] at hval
        obtain rfl : ([] : List Char) = canon := by
          simpa using hval
        exact absurd hlen (by decide)
      · split at hval
        · rename_i hp
          obtain rfl : _ = canon := by
            simpa using hval
          exact hp
        · exact absurd hval (by simp)
    exact ⟨hpre, hlen, howner⟩
  · intro users path user hlt
    unfold is_allowed
    split
    · simp only [decide_eq_false_iff_not]
      omega
    · rfl

/-- C1 witness: the guard statement applied to the caller john, the
root /srv/users, and a well-formed path inside the sandbox of john. -/
theorem C1_guard_prefix_and_owner_witness :
    (lc "/srv/users").isPrefixOf (lc "/srv/users/john/apps/x") = true
    ∧ (pySplit '/' (lc "/srv/users/john/apps/x")).length ≥ 6
    ∧ ∃ owner, get_owner_by_path [⟨1, lc "john", false⟩]
        (lc "/srv/users/john/apps/x") = some owner
        ∧ owner.id = (⟨1, lc "john", false⟩ : Tenant).id :=
  C1_guard_prefix_and_owner.1 (lc "/srv/users") [⟨1, lc "john", false⟩]
    (lc "/srv/users/john/apps/x") ⟨1, lc "john", false⟩
    (lc "/srv/users/john/apps/x") rfl (by decide) (by decide)

/-- C2 (code bug): a run in which the inner ACME get_ssl reports
failure (no certificate material). The effect trace shows no
certificate or key file written and nothing escaping the outer
boundary, but the outer FastcpSsl.get_ssl returns True because the
status = True assignment sits outside the if result: block,
contradicting its docstring (True on success False otherwise). -/
theorem C2_finalize_failure_returns_true :
    c2Oracle.acmeFinalize = none
    ∧ fastcpGetSsl c2Oracle =
      (true,
       [.acmeClientCreated,
        .orderPlaced [lc "example.com"] (lc "EXISTING_KEY"),
        .writeFile (lc "/var/fastcp/well-known/acme-challenge/tok1")
          (lc "tok1.keyauth"),
        .removeFile (lc "/var/fastcp/well-known/acme-challenge/tok1")]) := by
  constructor
  · rfl
  · decide

/-- Helper for C3: a name returned by the unique-name loop is not in
the directory. -/
theorem findZipName_not_mem (existing : List (List Char)) :
    ∀ (fuel : Nat) (zipRoot : List Char) (i : Nat) (name : List Char),
      findZipName existing fuel zipRoot i = some name → name ∉ existing := by
  intro fuel
  induction fuel with
  | zero => intro zipRoot i name h; exact absurd h (by simp [findZipName])
  | succ n ih =>
    intro zipRoot i name h
    unfold findZipName at h
    split at h
    · rename_i hfree
      obtain rfl : zipRoot = name := by simpa using h
      intro hmem
      simp [hmem] at hfree
    · exact ih _ _ _ h

/-- C3 (corrected): every sequence of archive creations with one seed
name yields pairwise distinct names, and no chosen name collides with
a file already in the directory (creation never overwrites). The
claimed name pattern, however, is wrong from the third archive on: see
the counterexample. -/
theorem C3_archive_names_distinct :
    ∀ (fuel n : Nat) (existing : List (List Char)) (seed : List Char)
      (names : List (List Char)),
      createZips fuel n existing seed = some names →
      names.Nodup ∧ ∀ nm ∈ names, nm ∉ existing := by
  intro fuel n
  induction n with
  | zero =>
    intro existing seed names h
    obtain rfl : ([] : List (List Char)) = names := by simpa [createZips] using h
    exact ⟨List.nodup_nil, by simp⟩
  | succ k ih =>
    intro existing seed names h
    unfold createZips at h
    cases hfind : findZipName existing fuel seed 1 with
    | none => simp only [hfind] at h; exact absurd h (by simp)
    | some name =>
      simp only [hfind] at h
      cases hrest : createZips fuel k (name :: existing) seed with
      | none => simp only [hrest] at h; exact absurd h (by simp)
      | some names' =>
        simp only [hrest] at h
        obtain rfl : name :: names' = names := by simpa using h
        obtain ⟨hnodup, hfresh⟩ := ih (name :: existing) seed names' hrest
        have hnameFree := findZipName_not_mem existing fuel seed 1 name hfind
        constructor
        · refine List.nodup_cons.mpr ⟨?_, hnodup⟩
          intro hmem
          exact (hfresh name hmem) (List.mem_cons_self name existing)
        · intro nm hm
          rcases List.mem_cons.mp hm with rfl | hm'
          · exact hnameFree
          · intro hmem
            exact (hfresh nm hm') (List.mem_cons_of_mem name hmem)

/-- C3 witness: the general distinctness statement applied to three
creations into an initially empty directory. -/
theorem C3_archive_names_distinct_witness :
    ([lc "name.zip", lc "name-1.zip", lc "name-1-2.zip"] :
        List (List Char)).Nodup
    ∧ ∀ nm ∈ ([lc "name.zip", lc "name-1.zip", lc "name-1-2.zip"] :
        List (List Char)), nm ∉ ([] : List (List Char)) :=
  C3_archive_names_distinct 10 3 [] (lc "name.zip")
    [lc "name.zip", lc "name-1.zip", lc "name-1-2.zip"] (by decide)

/-- C3 counterexample: the third archive with seed name.zip is named
name-1-2.zip, because the loop rewrites the previously tried name
(str.replace of ".zip" with -i.zip), not the seed — the claimed
name-2.zip never appears. -/
theorem C3_third_archive_name_counterexample :
    createZips 10 3 [] (lc "name.zip")
      = some [lc "name.zip", lc "name-1.zip", lc "name-1-2.zip"]
    ∧ lc "name-1-2.zip" ≠ lc "name-2.zip" := by
  decide

/-- C4 (code bug): the CSR step as actually reached from
FastcpSsl.get_ssl. With no private key on disk the caller passes the
empty string (never None), so _generate_csr skips its documented
fresh-key generation and make_csr fails on the unloadable empty key:
the whole first issuance fails instead of using a fresh RSA key. The
second conjunct shows the generation path that a None argument would
have taken; the third shows that the renewal path does keep the key
read from disk and covers exactly the verified domain list. -/
theorem C4_missing_key_not_generated :
    ssl_pipeline_csr (lc "FRESH_RSA_KEY") [lc "example.com"] none
      = .error .invalidKey
    ∧ request_ssl_csr (lc "FRESH_RSA_KEY") [lc "example.com"] none
      = .ok (lc "FRESH_RSA_KEY", ⟨[lc "example.com"], lc "FRESH_RSA_KEY"⟩)
    ∧ ssl_pipeline_csr (lc "FRESH_RSA_KEY") [lc "example.com"]
        (some (lc "DISK_KEY"))
      = .ok (lc "DISK_KEY", ⟨[lc "example.com"], lc "DISK_KEY"⟩) := by
  decide

/-- C5 (code bug): with every statement succeeding, setup_db runs
exactly the six statements in source order and returns True; but when
the third statement (CREATE DATABASE) fails, the engine exception
propagates out of _execute_sql (its except branch is raise e, the
return False is dead code), the two statements already executed stay
in place, and no boolean failure is ever returned. -/
theorem C5_failure_propagates_as_exception :
    setup_db (fun _ => true) (lc "u1") (lc "pw") (lc "db1")
      = .ok ([.createUserLocalhost (lc "u1") (lc "pw"),
              .createUserAnyHost (lc "u1") (lc "pw"),
              .createDatabase (lc "db1"),
              .grantLocalhost (lc "db1") (lc "u1"),
              .grantAnyHost (lc "db1") (lc "u1"),
              .flushPrivileges], true)
    ∧ setup_db c5FailCreateDb (lc "u1") (lc "pw") (lc "db1")
      = .error [.createUserLocalhost (lc "u1") (lc "pw"),
                .createUserAnyHost (lc "u1") (lc "pw")] := by
  decide

/-- C6 counterexample: a website whose domains are all verified and
whose certificate expires 30 days and one hour from now — strictly
more than 30 days in the future — is still acted on by the scan,
because timedelta.days of the remaining delta is 30 and the test is
days <= 30. -/
theorem C6_boundary_counterexample :
    scanActs ⟨[⟨lc "a.com", true⟩], true, 30 * 86400 + 3600⟩ 0 = true
    ∧ (0 : Int) + 30 * 86400 < 30 * 86400 + 3600
    ∧ needs_ssl ⟨[⟨lc "a.com", true⟩], true, 30 * 86400 + 3600⟩ = false := by
  refine ⟨by decide, by decide, by decide⟩

/-- C6 (corrected): the scan leaves a website alone exactly when
nothing else needs SSL and the certificate has more than 30 whole days
of validity left (floor of the remaining delta in days exceeds 30);
and any website holding a certificate already expired (not_valid_after
at or before now) is always acted on. -/
theorem C6_renewal_scan :
    (∀ (w : WebsiteCert) (now : Int), needs_ssl w = false →
      w.certExists = true →
      30 < (w.notValidAfter - now).toNat / 86400 →
      scanActs w now = false)
    ∧ (∀ (w : WebsiteCert) (now : Int), w.certExists = true →
      w.notValidAfter ≤ now → scanActs w now = true) := by
  constructor
  · intro w now hneeds hcert hdays
    have hnotexp : ¬ w.notValidAfter ≤ now := by omega
    unfold scanActs ssl_expiring
    rw [hneeds, hcert]
    simp only [if_true, if_neg hnotexp, if_neg (by omega :
      ¬ (w.notValidAfter - now).toNat / 86400 ≤ 30)]
    decide
  · intro w now hcert hexp
    unfold scanActs ssl_expiring
    rw [hcert]
    simp [hexp]

/-- C6 witness: both halves applied to concrete websites — one with a
certificate 40 days from expiry and all domains verified (left alone),
one with an expired certificate (acted on). -/
theorem C6_renewal_scan_witness :
    scanActs ⟨[⟨lc "a.com", true⟩], true, 40 * 86400⟩ 0 = false
    ∧ scanActs ⟨[⟨lc "b.com", true⟩], true, -5⟩ 0 = true :=
  ⟨C6_renewal_scan.1 ⟨[⟨lc "a.com", true⟩], true, 40 * 86400⟩ 0
      (by decide) rfl (by decide),
    C6_renewal_scan.2 ⟨[⟨lc "b.com", true⟩], true, -5⟩ 0 rfl (by decide)⟩

/-- C7 (confirmed): when the deletion view finds the target website
and that website has exactly one attached domain, the request is
answered with 400, the stored state is unchanged (the domain stays
attached), and no signal is emitted. -/
theorem C7_last_domain_protected :
    ∀ (st : PanelState) (userId : Nat) (isSuperuser : Bool)
      (websiteId domId : Nat) (w : WebsiteRow),
      (if isSuperuser then st.websites.find? (fun x => x.id = websiteId)
       else st.websites.find? (fun x => x.userId = userId ∧ x.id = websiteId))
        = some w →
      (st.domains.filter (fun d => d.websiteId = w.id)).length = 1 →
      deleteDomain st userId isSuperuser websiteId domId
        = (.badRequest, st, []) := by
  intro st userId isSuperuser websiteId domId w hfind hcount
  unfold deleteDomain
  rw [hfind]
  simp [hcount]

/-- C7 witness: a website of user 7 with the single domain 9 — its
deletion request is rejected and nothing changes. -/
theorem C7_last_domain_protected_witness :
    deleteDomain ⟨[⟨5, 7⟩], [⟨9, 5⟩]⟩ 7 false 5 9
      = (.badRequest, ⟨[⟨5, 7⟩], [⟨9, 5⟩]⟩, []) :=
  C7_last_domain_protected ⟨[⟨5, 7⟩], [⟨9, 5⟩]⟩ 7 false 5 9 ⟨5, 7⟩
    (by decide) (by decide)

/-- C9 counterexample: when the chown command times out, fix_ownership
does not return — the TimeoutExpired exception escapes, because
run_cmd catches only CalledProcessError. -/
theorem C9_timeout_raises_counterexample :
    (fix_ownership (lc "john") (lc "/srv/users/john/apps/site") .timeout).1
      = .error .timeoutExpired
    ∧ (fix_ownership (lc "john") (lc "/srv/users/john/apps/site") .timeout).1
      ≠ .ok () := by
  decide

/-- C9 (corrected): fix_ownership performs exactly one side effect —
the recursive chown of the path to the owning username — and returns
None; a non-zero exit status of the command is swallowed (run_cmd
catches CalledProcessError and returns False, which fix_ownership
discards), but a missing binary raises FileNotFoundError and the
300-second timeout raises TimeoutExpired, both propagating to the
caller. -/
theorem C9_fix_ownership_behavior :
    ∀ (username basePath : List Char),
      (∀ outcome, (fix_ownership username basePath outcome).2
        = [chownCmd username basePath])
      ∧ (fix_ownership username basePath .success).1 = .ok ()
      ∧ (fix_ownership username basePath .nonzeroExit).1 = .ok ()
      ∧ (fix_ownership username basePath .missingBinary).1
          = .error .fileNotFoundError
      ∧ (fix_ownership username basePath .timeout).1
          = .error .timeoutExpired := by
  intro u p
  exact ⟨fun o => by cases o <;> rfl, rfl, rfl, rfl, rfl⟩

/-- C10 (confirmed): when no attached domain passes the resolution
pre-check, the outer get_ssl returns False and the only effect that
can have happened is the creation of the ssl base directory — no ACME
client, no order, no file write, no service restart, no ssl flag. -/
theorem C10_no_verified_domains_no_action :
    ∀ (o : SslOracle), (∀ d ∈ o.domains, o.resolves d = false) →
      (fastcpGetSsl o).1 = false
      ∧ ∀ e ∈ (fastcpGetSsl o).2, isMkdirEffect e = true := by
  intro o h
  have hv : o.domains.filter o.resolves = [] := by
    rw [List.filter_eq_nil_iff]
    intro a ha
    simp [h a ha]
  constructor
  · unfold fastcpGetSsl
    rw [hv]
    rfl
  · intro e he
    unfold fastcpGetSsl at he
    rw [hv] at he
    simp only [List.isEmpty_nil, if_true] at he
    split at he
    · simp only [List.mem_singleton] at he
      rw [he]
      rfl
    · exact absurd he (by simp)

/-- C10 witness: the general statement applied to a run whose single
domain fails the pre-check. -/
theorem C10_no_verified_domains_no_action_witness :
    (fastcpGetSsl c10Oracle).1 = false
    ∧ ∀ e ∈ (fastcpGetSsl c10Oracle).2, isMkdirEffect e = true :=
  C10_no_verified_domains_no_action c10Oracle (by decide)

end Fastcp
